import Mathlib

/-!
Shallow embedding of the LLM-orchestration core of the travel-chatbot
backend: the intent extraction chain (`src/backend/src/ai/chains/intent.chain.ts`)
and the itinerary generation chain (`ItineraryChain`), together with the
schema-validated data model (`schema.validator.ts`).

Modelling conventions:
- JavaScript numbers are modelled as rationals (`ℚ`); the special values
  produced by division by zero are modelled explicitly by `JSNum`.
- Fallible operations return `Except String` where the TypeScript code throws;
  the remote model backend is passed in as an explicit oracle argument
  (the outcome that `generateJSON` would produce if invoked), since prompt
  construction only affects the argument sent to the remote model.
- JSON values (the untyped output of the model backend before schema
  validation) are modelled by the inductive type `Json`.
-/

namespace Chatbot

/-- Supported locales: the `en | zh` union type used throughout the code. -/
inductive Locale where
  | en
  | zh
deriving DecidableEq, Repr

/-- Untyped JSON value, the raw output of the model backend. -/
inductive Json where
  | null
  | bool (b : Bool)
  | num (q : ℚ)
  | str (s : String)
  | arr (elts : List Json)
  | obj (fields : List (String × Json))

/-- Field lookup on a JSON object (first binding wins, as in parsed JSON). -/
def Json.getField (fields : List (String × Json)) (key : String) : Option Json :=
  (fields.find? (fun p => p.1 = key)).map (fun p => p.2)

/-- JavaScript truthiness of an object-field access: `undefined` (absent key),
`null`, `false`, `0` and the empty string are falsy; everything else is truthy. -/
def jsTruthy : Option Json → Bool
  | none => false
  | some Json.null => false
  | some (Json.bool b) => b
  | some (Json.num q) => decide (q ≠ 0)
  | some (Json.str s) => decide (s ≠ "")
  | some (Json.arr _) => true
  | some (Json.obj _) => true

/-- The closed intent-type enumeration of `intentSchema`. -/
inductive IntentType where
  | create_itinerary
  | compare_prices
  | recommend_restaurant
  | recommend_rental
  | check_weather
  | check_traffic
  | general_query
  | greeting
  | help
deriving DecidableEq, Repr

/-- Parse the `type` field string against the closed enum of `intentSchema`. -/
def parseIntentType : String → Option IntentType
  | "create_itinerary" => some IntentType.create_itinerary
  | "compare_prices" => some IntentType.compare_prices
  | "recommend_restaurant" => some IntentType.recommend_restaurant
  | "recommend_rental" => some IntentType.recommend_rental
  | "check_weather" => some IntentType.check_weather
  | "check_traffic" => some IntentType.check_traffic
  | "general_query" => some IntentType.general_query
  | "greeting" => some IntentType.greeting
  | "help" => some IntentType.help
  | _ => none

/-- Parse the `locale` field string against the `en | zh` enum. -/
def parseLocale : String → Option Locale
  | "en" => some Locale.en
  | "zh" => some Locale.zh
  | _ => none

/-- Metadata attached to a fallback intent by `createFallbackIntent`. -/
structure IntentMetadata where
  fallback : Bool
  originalQuery : String
deriving DecidableEq, Repr

/-- `IntentResult`: typed intent value (`intent.dto.ts` / `intentSchema`).
`parameters` is the open mapping of extracted slots (a JSON object). -/
structure IntentResult where
  type : IntentType
  confidence : ℚ
  locale : Locale
  parameters : List (String × Json)
  detectedLanguage : Option Locale
  metadata : Option IntentMetadata

/-- Embedding of `intentSchema.parse` (Zod): requires `type` in the closed
enum, `confidence` a number in `[0,1]`, `parameters` an object, `locale` in
the locale enum; unknown keys are stripped, so the parsed value carries no
`detectedLanguage` and no `metadata`. Returns `none` on validation failure. -/
def validateIntent (j : Json) : Option IntentResult :=
  match j with
  | Json.obj fields =>
    match Json.getField fields "type", Json.getField fields "confidence",
          Json.getField fields "parameters", Json.getField fields "locale" with
    | some (Json.str t), some (Json.num c), some (Json.obj ps), some (Json.str l) =>
      match parseIntentType t, parseLocale l with
      | some ty, some loc =>
        if 0 ≤ c ∧ c ≤ 1 then
          some { type := ty, confidence := c, locale := loc, parameters := ps,
                 detectedLanguage := none, metadata := none }
        else none
      | _, _ => none
    | _, _, _, _ => none
  | _ => none

/-- A message of the optional conversation context of `ExtractIntentDto`. -/
structure ChatMessageDto where
  role : String
  content : String
deriving DecidableEq, Repr

/-- `ExtractIntentDto`: input of `IntentChain.extract`. -/
structure ExtractIntentDto where
  query : String
  locale : Option Locale
  context : List ChatMessageDto
deriving DecidableEq, Repr

/-- `IntentChain.detectLanguage`: the query is `zh` iff it contains a character
matched by the regex class `[一-鿿]` (CJK Unified Ideographs). -/
def detectLanguage (query : String) : Locale :=
  if query.data.any (fun c => 0x4e00 ≤ c.toNat && c.toNat ≤ 0x9fff)
  then Locale.zh else Locale.en

/-- Locale resolution at the top of `extract`: `dto.locale || this.detectLanguage(dto.query)`. -/
def resolveLocale (dto : ExtractIntentDto) : Locale :=
  dto.locale.getD (detectLanguage dto.query)

/-- `IntentChain.createFallbackIntent`. -/
def createFallbackIntent (query : String) (locale : Locale) : IntentResult :=
  { type := IntentType.general_query
    confidence := 1/2
    locale := locale
    parameters := []
    detectedLanguage := none
    metadata := some { fallback := true, originalQuery := query } }

/-- `IntentChain.extract`. The `response` argument is the outcome of the
`aiService.generateJSON` call (an `Except.error` models a thrown provider
error, including the malformed-output case where `JSON.parse` fails inside
the provider and `handleError` rethrows). The surrounding `try/catch` of
`extract` logs and rethrows, so provider errors propagate unchanged; a
successfully parsed JSON value that fails `intentSchema` validation yields
the fallback intent, and a valid one is returned with `detectedLanguage`
set to the resolved locale. -/
def extract (dto : ExtractIntentDto) (response : Except String Json) :
    Except String IntentResult :=
  let locale := resolveLocale dto
  match response with
  | Except.error e => Except.error e
  | Except.ok j =>
    match validateIntent j with
    | none => Except.ok (createFallbackIntent dto.query locale)
    | some intent => Except.ok { intent with detectedLanguage := some locale }

/-- `IntentChain.isActionable`. -/
def isActionable (intent : IntentResult) : Bool :=
  if intent.confidence < 7/10 then
    false
  else
    match intent.type with
    | IntentType.create_itinerary =>
      jsTruthy (Json.getField intent.parameters "destination") ||
      jsTruthy (Json.getField intent.parameters "duration")
    | IntentType.compare_prices =>
      jsTruthy (Json.getField intent.parameters "destination") ||
      jsTruthy (Json.getField intent.parameters "specificRequests")
    | IntentType.recommend_restaurant =>
      jsTruthy (Json.getField intent.parameters "destination")
    | IntentType.recommend_rental =>
      jsTruthy (Json.getField intent.parameters "destination")
    | IntentType.check_weather =>
      jsTruthy (Json.getField intent.parameters "destination")
    | IntentType.check_traffic =>
      jsTruthy (Json.getField intent.parameters "destination")
    | _ => true

/-- C7: every intent with confidence below 0.7 is rejected by `isActionable`,
whatever its type and parameters. -/
theorem isActionable_false_of_low_confidence (intent : IntentResult)
    (h : intent.confidence < 7/10) : isActionable intent = false := by
  unfold isActionable
  simp [h]

/-- Witness for C7 at a concrete low-confidence intent. -/
theorem isActionable_false_of_low_confidence_witness :
    (1/2 : ℚ) < 7/10 ∧
      isActionable { type := IntentType.create_itinerary, confidence := 1/2,
                     locale := Locale.en,
                     parameters := [("destination", Json.str "Auckland")],
                     detectedLanguage := none, metadata := none } = false :=
  ⟨by norm_num,
   isActionable_false_of_low_confidence
     { type := IntentType.create_itinerary, confidence := 1/2,
       locale := Locale.en,
       parameters := [("destination", Json.str "Auckland")],
       detectedLanguage := none, metadata := none }
     (by norm_num)⟩

/-- C6: with no explicit locale, a query containing a CJK ideograph resolves
to `zh`, and an all-ASCII query resolves to `en`. -/
theorem detectLanguage_resolution (q : String) :
    ((∃ c ∈ q.data, 0x4e00 ≤ c.toNat ∧ c.toNat ≤ 0x9fff) →
        resolveLocale { query := q, locale := none, context := [] } = Locale.zh) ∧
    ((∀ c ∈ q.data, c.toNat < 128) →
        resolveLocale { query := q, locale := none, context := [] } = Locale.en) := by
  constructor
  · intro h
    obtain ⟨c, hc, h1, h2⟩ := h
    simp only [resolveLocale, Option.getD, detectLanguage]
    rw [if_pos]
    exact List.any_eq_true.mpr ⟨c, hc, by simp [h1, h2]⟩
  · intro h
    simp only [resolveLocale, Option.getD, detectLanguage]
    rw [if_neg]
    intro hany
    obtain ⟨c, hc, hcj⟩ := List.any_eq_true.mp hany
    have := h c hc
    simp only [Bool.and_eq_true, decide_eq_true_eq] at hcj
    omega

/-- Witness for C6: a query with a CJK ideograph resolves to `zh`, an
all-ASCII one to `en`. -/
theorem detectLanguage_resolution_witness :
    resolveLocale { query := "你好", locale := none, context := [] } = Locale.zh ∧
    resolveLocale { query := "hello", locale := none, context := [] } = Locale.en :=
  ⟨(detectLanguage_resolution "你好").1 ⟨'你', by decide, by decide, by decide⟩,
   (detectLanguage_resolution "hello").2 (by decide)⟩

/-- C2: whenever the raw model JSON fails intent-schema validation, `extract`
returns (rather than raises) exactly the fallback intent: type
`general_query`, confidence `0.5`, the resolved locale, empty parameters,
and metadata marking the fallback with the original query. -/
theorem extract_fallback_on_invalid (dto : ExtractIntentDto) (j : Json)
    (h : validateIntent j = none) :
    extract dto (Except.ok j) =
      Except.ok
        { type := IntentType.general_query
          confidence := 1/2
          locale := resolveLocale dto
          parameters := []
          detectedLanguage := none
          metadata := some { fallback := true, originalQuery := dto.query } } := by
  simp [extract, h, createFallbackIntent]

/-- Witness for C2 at a concrete query and a schema-invalid model output. -/
theorem extract_fallback_on_invalid_witness :
    validateIntent (Json.str "not an intent") = none ∧
    extract { query := "plan a trip", locale := none, context := [] }
        (Except.ok (Json.str "not an intent")) =
      Except.ok
        { type := IntentType.general_query
          confidence := 1/2
          locale := resolveLocale { query := "plan a trip", locale := none, context := [] }
          parameters := []
          detectedLanguage := none
          metadata := some { fallback := true, originalQuery := "plan a trip" } } :=
  ⟨rfl,
   extract_fallback_on_invalid
     { query := "plan a trip", locale := none, context := [] }
     (Json.str "not an intent") rfl⟩

/-- C5 counterexample: when the provider raises on malformed output (the
`JSON.parse` failure is rethrown by `handleError`, modelled by the
`Except.error` oracle outcome), `extract` itself raises instead of returning
a fallback intent, contradicting the claim that this path never raises. -/
theorem extract_raises_on_malformed :
    (extract { query := "plan a trip", locale := none, context := [] }
        (Except.error "AnthropicProvider GenerateJSON: Unexpected token")).isOk
      = false := rfl

/-- C5 amended: a provider-level failure of `generateJSON` (including the
malformed-output case) propagates unchanged out of `extract`; the fallback
intent is produced only for schema-validation failures of parsed output. -/
theorem extract_propagates_generateJSON_error (dto : ExtractIntentDto) (e : String) :
    extract dto (Except.error e) = Except.error e := rfl

/-! ## Itinerary chain data model (`itinerarySchema` in `schema.validator.ts`) -/

/-- `BilingualText`: both locales always present. -/
structure BilingualText where
  en : String
  zh : String
deriving DecidableEq, Repr

/-- Geographic coordinates of an activity location. -/
structure Coordinates where
  lat : ℚ
  lng : ℚ
deriving DecidableEq, Repr

/-- Location of an itinerary activity. -/
structure Location where
  name : String
  address : Option String
  coordinates : Option Coordinates
deriving DecidableEq, Repr

/-- A monetary amount with its currency (activity cost / itinerary total cost). -/
structure Cost where
  amount : ℚ
  currency : String
deriving DecidableEq, Repr

/-- `ItineraryActivity` per `itineraryActivitySchema`. -/
structure ItineraryActivity where
  time : String
  name : BilingualText
  description : BilingualText
  location : Location
  duration : ℚ
  cost : Option Cost
  category : String
deriving DecidableEq, Repr

/-- The meal fields of an itinerary day. -/
structure Meals where
  breakfast : Option String
  lunch : Option String
  dinner : Option String
deriving DecidableEq, Repr

/-- `ItineraryDay` per `itineraryDaySchema`. -/
structure ItineraryDay where
  day : ℚ
  date : String
  activities : List ItineraryActivity
  meals : Meals
  accommodation : Option String
  notes : Option BilingualText
deriving DecidableEq, Repr

/-- `GeneratedItinerary` per `itinerarySchema`: any value of this type is
exactly a value that passes itinerary schema validation. -/
structure GeneratedItinerary where
  title : BilingualText
  summary : BilingualText
  destination : String
  startDate : String
  endDate : String
  days : List ItineraryDay
  totalCost : Option Cost
  recommendations : List BilingualText
deriving DecidableEq, Repr

/-! ## Time parsing and the per-day activity sort -/

/-- JavaScript `Number(s)` restricted to the fragment exercised here: the
empty string converts to `0`, a string of decimal digits converts to its
value, and any string containing a non-digit converts to `NaN` (`none`). -/
def jsNumOf (s : String) : Option ℚ :=
  if s.data.isEmpty then some 0
  else if s.data.all Char.isDigit then
    some ((s.data.foldl (fun n c => n * 10 + (c.toNat - 48)) 0 : ℕ) : ℚ)
  else none

/-- Split a character list at every occurrence of a separator character;
the semantics of JavaScript `String.prototype.split` with a one-character
separator (the empty string splits to one empty field). -/
def splitChars (sep : Char) : List Char → List (List Char)
  | [] => [[]]
  | c :: cs =>
    match splitChars sep cs with
    | r :: rs => if c = sep then [] :: r :: rs else (c :: r) :: rs
    | [] => [[c]]

/-- `timeStr.split(sep)` for a one-character separator. -/
def jsSplit (s : String) (sep : Char) : List String :=
  (splitChars sep s.data).map (fun cs => String.mk cs)

/-- `ItineraryChain.parseTime`: split at the colon, convert both fields with
`Number`, and return `hours * 60 + (minutes || 0)`. `none` models `NaN`
(an unconvertible hours field makes the whole expression `NaN`, while an
absent or unconvertible minutes field is replaced by `0` by `|| 0`). -/
def parseTime (timeStr : String) : Option ℚ :=
  let parts := jsSplit timeStr ':'
  let hours := jsNumOf (parts.headD "")
  let minutes := (parts.get? 1).map jsNumOf
  match hours with
  | none => none
  | some h =>
    some (h * 60 + (match minutes with
      | some (some m) => m
      | _ => 0))

/-- Parsed time key of an activity. -/
def timeKey (a : ItineraryActivity) : Option ℚ :=
  parseTime a.time

/-- Parsed time of an activity with `NaN` defaulted to `0`; on activities
whose time parses (the only ones the claims quantify over) this is the
parsed time-of-day in minutes. -/
def timeVal (a : ItineraryActivity) : ℚ :=
  (timeKey a).getD 0

/-- The comparator `(a, b) => parseTime(a.time) - parseTime(b.time)` as seen
by the sort: per the ECMAScript `SortCompare` operation, a `NaN` comparator
result is treated as `+0`. -/
def actCmp (a b : ItineraryActivity) : ℚ :=
  match timeKey a, timeKey b with
  | some p, some q => p - q
  | _, _ => 0

/-- The precedence relation induced by the comparator: `a` may come no later
than `b` when the comparator does not order `a` strictly after `b`. -/
def actLe (a b : ItineraryActivity) : Prop :=
  actCmp a b ≤ 0

instance : DecidableRel actLe :=
  fun a b => inferInstanceAs (Decidable (actCmp a b ≤ 0))

/-- `day.activities.sort(comparator)`: `Array.prototype.sort` is required to
be stable and to produce a sequence sorted with respect to the comparator,
which (for a consistent comparator) is exactly the result of a stable
insertion sort by the induced precedence relation. -/
def sortActivities (l : List ItineraryActivity) : List ItineraryActivity :=
  l.insertionSort actLe

/-- The per-day part of `ItineraryChain.optimizeItinerary`. -/
def optimizeDay (d : ItineraryDay) : ItineraryDay :=
  { d with activities := sortActivities d.activities }

/-! ## Cost aggregation -/

/-- JavaScript `Math.round`: round half toward positive infinity. -/
def jsRound (q : ℚ) : ℚ :=
  ((Rat.floor (q + 1/2) : ℤ) : ℚ)

/-- `jsRound` is the floor of the argument shifted by one half. -/
theorem jsRound_eq_floor (q : ℚ) : jsRound q = ((⌊q + 1/2⌋ : ℤ) : ℚ) := by
  rw [jsRound, Rat.floor_def', ← Rat.floor_def]

/-- One step of the `forEach` accumulation in `calculateTotalCost`: an
activity with a cost adds its amount to the running total and overwrites the
running currency; an activity without a cost changes nothing. -/
def costStep (acc : ℚ × String) (a : ItineraryActivity) : ℚ × String :=
  match a.cost with
  | some c => (acc.1 + c.amount, c.currency)
  | none => acc

/-- `ItineraryChain.calculateTotalCost`: accumulate over days then activities
starting from total `0` and currency `"NZD"`, and round the total. -/
def calculateTotalCost (it : GeneratedItinerary) : Cost :=
  let acc := it.days.foldl (fun acc d => d.activities.foldl costStep acc) (0, "NZD")
  { amount := jsRound acc.1, currency := acc.2 }

/-- The state of the itinerary after the first phase of `optimizeItinerary`
(every day sorted in place by activity time). -/
def sortItineraryDays (it : GeneratedItinerary) : GeneratedItinerary :=
  { it with days := it.days.map optimizeDay }

/-- `ItineraryChain.optimizeItinerary`: sort each day by time, then fill in
`totalCost` from the (already sorted) itinerary when it is absent
(`!itinerary.totalCost` is true exactly when the field is undefined, since
an object is always truthy). -/
def optimizeItinerary (it : GeneratedItinerary) : GeneratedItinerary :=
  match (sortItineraryDays it).totalCost with
  | some _ => sortItineraryDays it
  | none =>
    { sortItineraryDays it with
        totalCost := some (calculateTotalCost (sortItineraryDays it)) }

/-- Post-processing when `totalCost` is absent: the sorted itinerary with the
computed total cost filled in. -/
theorem optimizeItinerary_of_totalCost_none (it : GeneratedItinerary)
    (h : it.totalCost = none) :
    optimizeItinerary it =
      { sortItineraryDays it with
          totalCost := some (calculateTotalCost (sortItineraryDays it)) } := by
  have hs : (sortItineraryDays it).totalCost = none := h
  unfold optimizeItinerary
  rw [hs]

/-- Post-processing when `totalCost` is present: only the days are sorted. -/
theorem optimizeItinerary_of_totalCost_some (it : GeneratedItinerary) (c : Cost)
    (h : it.totalCost = some c) :
    optimizeItinerary it = sortItineraryDays it := by
  have hs : (sortItineraryDays it).totalCost = some c := h
  unfold optimizeItinerary
  rw [hs]

/-! ## Statistics -/

/-- A JavaScript number including the special values that division by zero
produces. -/
inductive JSNum where
  | num (q : ℚ)
  | nan
  | inf
  | negInf
deriving DecidableEq, Repr

/-- JavaScript division: `0 / 0` is `NaN` and `q / 0` is a signed infinity. -/
def jsDiv (a b : ℚ) : JSNum :=
  if b = 0 then
    if a = 0 then JSNum.nan
    else if 0 < a then JSNum.inf
    else JSNum.negInf
  else JSNum.num (a / b)

/-- `Math.round` extended to the special values: it is the identity on
`NaN` and the infinities. -/
def jsRoundN : JSNum → JSNum
  | JSNum.num q => JSNum.num (jsRound q)
  | x => x

/-- `ItineraryChain.countActivities`: `reduce((sum, day) => sum + day.activities.length, 0)`. -/
def countActivities (it : GeneratedItinerary) : ℚ :=
  it.days.foldl (fun sum d => sum + (d.activities.length : ℚ)) 0

/-- Result record of `ItineraryChain.getStatistics`. The two averages are
`JSNum` because the code divides by `itinerary.days.length` unguarded. -/
structure Statistics where
  totalDays : ℚ
  totalActivities : ℚ
  totalCost : ℚ
  avgActivitiesPerDay : JSNum
  avgDailyBudget : JSNum
deriving DecidableEq, Repr

/-- `ItineraryChain.getStatistics`. `itinerary.totalCost?.amount || 0` is the
amount when `totalCost` is present with a nonzero amount and `0` otherwise,
which coincides with defaulting the absent field to `0`. -/
def getStatistics (it : GeneratedItinerary) : Statistics :=
  let totalActivities := countActivities it
  let totalCost := (it.totalCost.map Cost.amount).getD 0
  { totalDays := (it.days.length : ℚ)
    totalActivities := totalActivities
    totalCost := totalCost
    avgActivitiesPerDay := jsRoundN (jsDiv totalActivities (it.days.length : ℚ))
    avgDailyBudget := jsRoundN (jsDiv totalCost (it.days.length : ℚ)) }

/-! ## Itinerary generation -/

/-- `GenerateItineraryDto`, the input of `ItineraryChain.generate`. The two
dates are modelled by the epoch timestamps that `new Date(...)` yields on
them (the DTO validates them as date strings, so parsing cannot fail);
fields that only feed the prompt text (destination, travelers, preferences,
specific requests) are carried opaquely or omitted, since they do not
influence control flow. -/
structure GenerateItineraryDto where
  destination : String
  startDate : Int
  endDate : Int
  days : ℚ
  locale : Option Locale
deriving DecidableEq, Repr

/-- `ItineraryChain.validateDateRange`: throws when `start >= end`; the
`days`-versus-date-range mismatch is only logged, never an error. -/
def validateDateRange (startDate endDate : Int) (days : ℚ) : Except String Unit :=
  if startDate ≥ endDate then Except.error "End date must be after start date"
  else Except.ok ()

/-- The outcome of the `generateJSON` call inside `generate`, as decided by
the remote model: a thrown provider error, or a response that fails
itinerary-schema validation (carrying the stringified error list), or a
schema-valid itinerary. -/
inductive ModelOutcome where
  | thrown (e : String)
  | invalid (errors : String)
  | valid (it : GeneratedItinerary)

/-- `ItineraryChain.generate`. Returns the result together with the number
of `generateJSON` invocations performed. Date validation precedes the model
call; a schema-validation failure raises `Invalid itinerary response`; a
valid response is post-processed by `optimizeItinerary` and returned. The
surrounding `try/catch` only logs and rethrows. -/
def generate (dto : GenerateItineraryDto) (response : ModelOutcome) :
    Except String GeneratedItinerary × Nat :=
  match validateDateRange dto.startDate dto.endDate dto.days with
  | Except.error e => (Except.error e, 0)
  | Except.ok _ =>
    match response with
    | ModelOutcome.thrown e => (Except.error e, 1)
    | ModelOutcome.invalid errors =>
      (Except.error ("Invalid itinerary response: " ++ errors), 1)
    | ModelOutcome.valid it => (Except.ok (optimizeItinerary it), 1)

/-- C1: when the start date is not strictly before the end date, `generate`
fails with exactly the message `End date must be after start date`, and the
model is never called (zero `generateJSON` invocations), whatever the model
would have answered. -/
theorem generate_rejects_bad_date_range (dto : GenerateItineraryDto)
    (response : ModelOutcome) (h : ¬ dto.startDate < dto.endDate) :
    generate dto response = (Except.error "End date must be after start date", 0) := by
  have h' : dto.startDate ≥ dto.endDate := Int.not_lt.mp h
  simp [generate, validateDateRange, h']

/-- Witness for C1 at the request of end-to-end scenario 2 (2025-12-10 to
2025-12-05, as epoch-day timestamps). -/
theorem generate_rejects_bad_date_range_witness :
    ¬ (20432 : Int) < 20427 ∧
    generate { destination := "Auckland", startDate := 20432, endDate := 20427,
               days := 3, locale := some Locale.en }
        (ModelOutcome.thrown "never reached") =
      (Except.error "End date must be after start date", 0) :=
  ⟨by decide,
   generate_rejects_bad_date_range
     { destination := "Auckland", startDate := 20432, endDate := 20427,
       days := 3, locale := some Locale.en }
     (ModelOutcome.thrown "never reached") (by decide)⟩

/-! ## C8: statistics on an itinerary with zero days -/

/-- A schema-valid itinerary with an empty `days` sequence and no `totalCost`. -/
def zeroDaysItinerary : GeneratedItinerary :=
  { title := { en := "Empty", zh := "空" }
    summary := { en := "No days", zh := "没有天" }
    destination := "Auckland"
    startDate := "2025-12-01"
    endDate := "2025-12-01"
    days := []
    totalCost := none
    recommendations := [] }

/-- C8 (code behaviour at the failing input): on an itinerary with zero days,
`getStatistics` divides by zero and both averages are `NaN` rather than the
well-defined zeroed values the specification requires. -/
theorem getStatistics_zero_days_nan :
    (getStatistics zeroDaysItinerary).avgActivitiesPerDay = JSNum.nan ∧
    (getStatistics zeroDaysItinerary).avgDailyBudget = JSNum.nan :=
  ⟨rfl, rfl⟩

/-! ## Cost aggregation: characterization of `calculateTotalCost` -/

/-- The costs carried by the activities of an itinerary, in day order and
then activity order. -/
def activityCosts (it : GeneratedItinerary) : List Cost :=
  ((it.days.map ItineraryDay.activities).flatten).filterMap ItineraryActivity.cost

/-- The currency the specification describes for the computed total cost:
the first non-empty currency among the activity costs, defaulting to `NZD`. -/
def firstNonEmptyCurrency (it : GeneratedItinerary) : String :=
  ((((activityCosts it).map Cost.currency).filter (fun c => c ≠ "")).headD "NZD")

/-- Last element of a list with an explicit default, shifted by one cons. -/
theorem getLast?_getD_cons {α : Type} (x : α) (xs : List α) (d : α) :
    ((x :: xs).getLast?).getD d = (xs.getLast?).getD x := by
  cases xs with
  | nil => rfl
  | cons y ys => rw [List.getLast?_cons_cons]; rfl

/-- Last element of an appended list with an explicit default. -/
theorem getLast?_getD_append {α : Type} (xs ys : List α) (d : α) :
    ((xs ++ ys).getLast?).getD d = (ys.getLast?).getD ((xs.getLast?).getD d) := by
  induction xs generalizing d with
  | nil => rfl
  | cons x xs ih => rw [List.cons_append, getLast?_getD_cons, ih, getLast?_getD_cons]

/-- The running total of the activity-level `forEach` is the initial total
plus the sum of the amounts of the costs encountered. -/
theorem foldl_costStep_fst (l : List ItineraryActivity) (acc : ℚ × String) :
    (l.foldl costStep acc).1 =
      acc.1 + ((l.filterMap ItineraryActivity.cost).map Cost.amount).sum := by
  induction l generalizing acc with
  | nil => simp
  | cons a t ih =>
    cases h : a.cost with
    | none => simp [List.foldl_cons, costStep, h, ih]
    | some c => simp [List.foldl_cons, costStep, h, ih]; ring

/-- The running currency of the activity-level `forEach` is the currency of
the last cost encountered, or the initial currency when there is none. -/
theorem foldl_costStep_snd (l : List ItineraryActivity) (acc : ℚ × String) :
    (l.foldl costStep acc).2 =
      (((l.filterMap ItineraryActivity.cost).map Cost.currency).getLast?).getD acc.2 := by
  induction l generalizing acc with
  | nil => rfl
  | cons a t ih =>
    cases h : a.cost with
    | none => simp [List.foldl_cons, costStep, h, ih]
    | some c =>
      simp only [List.foldl_cons, costStep, h, ih, List.filterMap_cons, List.map_cons]
      rw [getLast?_getD_cons]

/-- The day-level fold accumulates the flattened activity list. -/
theorem foldl_days_costStep (ds : List ItineraryDay) (acc : ℚ × String) :
    ds.foldl (fun acc d => d.activities.foldl costStep acc) acc =
      ((ds.map ItineraryDay.activities).flatten).foldl costStep acc := by
  induction ds generalizing acc with
  | nil => rfl
  | cons d t ih => simp [List.foldl_cons, List.foldl_append, ih]

/-- `calculateTotalCost` computes the rounded sum of all activity-cost
amounts, and the currency of the last activity cost (default `NZD`). -/
theorem calculateTotalCost_eq (it : GeneratedItinerary) :
    calculateTotalCost it =
      { amount := jsRound (((activityCosts it).map Cost.amount).sum)
        currency := (((activityCosts it).map Cost.currency).getLast?).getD "NZD" } := by
  unfold calculateTotalCost activityCosts
  rw [foldl_days_costStep, Cost.mk.injEq]
  constructor
  · rw [foldl_costStep_fst]; norm_num
  · rw [foldl_costStep_snd]

/-- Sorting the days leaves the multiset of activity costs unchanged. -/
theorem activityCosts_sortItineraryDays_perm (it : GeneratedItinerary) :
    (activityCosts (sortItineraryDays it)).Perm (activityCosts it) := by
  unfold activityCosts sortItineraryDays
  refine List.Perm.filterMap _ (List.Perm.flatten_congr ?_)
  simp only [List.map_map]
  induction it.days with
  | nil => exact List.Forall₂.nil
  | cons d t ih =>
    exact List.Forall₂.cons (List.perm_insertionSort actLe d.activities) ih

/-- C4: when `totalCost` is absent, post-processing sets it, and its amount
is the sum of `cost.amount` over all cost-carrying activities of the
itinerary, rounded by `Math.round`; costless activities contribute nothing. -/
theorem optimize_sets_totalCost_amount (it : GeneratedItinerary)
    (h : it.totalCost = none) :
    ∃ c, (optimizeItinerary it).totalCost = some c ∧
      c.amount = jsRound (((activityCosts it).map Cost.amount).sum) := by
  refine ⟨calculateTotalCost (sortItineraryDays it), ?_, ?_⟩
  · rw [optimizeItinerary_of_totalCost_none it h]
  · rw [calculateTotalCost_eq]
    have hperm := (activityCosts_sortItineraryDays_perm it).map Cost.amount
    rw [hperm.sum_eq]

/-- A concrete itinerary without `totalCost`: one activity on each of two
days, costing 10.4 USD and 5.3 EUR respectively. -/
def twoCurrencyItinerary : GeneratedItinerary :=
  { title := { en := "Trip", zh := "旅行" }
    summary := { en := "Two activities", zh := "两项活动" }
    destination := "Auckland"
    startDate := "2025-12-01"
    endDate := "2025-12-03"
    days :=
      [{ day := 1
         date := "2025-12-01"
         activities :=
           [{ time := "09:00"
              name := { en := "Museum", zh := "博物馆" }
              description := { en := "Visit", zh := "参观" }
              location := { name := "Auckland Museum", address := none, coordinates := none }
              duration := 120
              cost := some { amount := 52/5, currency := "USD" }
              category := "culture" }]
         meals := { breakfast := none, lunch := none, dinner := none }
         accommodation := none
         notes := none },
       { day := 2
         date := "2025-12-02"
         activities :=
           [{ time := "12:00"
              name := { en := "Ferry", zh := "渡轮" }
              description := { en := "Ride", zh := "乘坐" }
              location := { name := "Harbour", address := none, coordinates := none }
              duration := 60
              cost := some { amount := 53/10, currency := "EUR" }
              category := "transport" }]
         meals := { breakfast := none, lunch := none, dinner := none }
         accommodation := none
         notes := none }]
    totalCost := none
    recommendations := [] }

/-- Witness for C4: on the concrete two-cost itinerary the computed amount is
`Math.round(10.4 + 5.3) = 16`. -/
theorem optimize_sets_totalCost_amount_witness :
    ∃ c, (optimizeItinerary twoCurrencyItinerary).totalCost = some c ∧
      c.amount = jsRound (((activityCosts twoCurrencyItinerary).map Cost.amount).sum) :=
  optimize_sets_totalCost_amount twoCurrencyItinerary rfl

/-- C9 counterexample: on the two-cost itinerary the computed currency is the
currency of the last cost (`EUR`), not the first non-empty currency (`USD`). -/
theorem totalCost_currency_is_not_first :
    ((optimizeItinerary twoCurrencyItinerary).totalCost.map Cost.currency) = some "EUR" ∧
    firstNonEmptyCurrency twoCurrencyItinerary = "USD" ∧
    ("EUR" : String) ≠ "USD" := by
  refine ⟨?_, rfl, by decide⟩
  rw [optimizeItinerary_of_totalCost_none twoCurrencyItinerary rfl]
  rw [calculateTotalCost_eq]
  rfl

/-- C9 amended: when `totalCost` is absent, the computed currency is the
currency of the last cost-carrying activity in day order then activity order
of the post-sort itinerary, `NZD` when no activity carries a cost; the
emptiness of a currency string is never consulted. -/
theorem optimize_totalCost_currency (it : GeneratedItinerary)
    (h : it.totalCost = none) :
    ∃ c, (optimizeItinerary it).totalCost = some c ∧
      c.currency =
        (((activityCosts (sortItineraryDays it)).map Cost.currency).getLast?).getD "NZD" := by
  refine ⟨calculateTotalCost (sortItineraryDays it), ?_, ?_⟩
  · rw [optimizeItinerary_of_totalCost_none it h]
  · rw [calculateTotalCost_eq]

/-- Witness for the amended C9 at the concrete two-cost itinerary. -/
theorem optimize_totalCost_currency_witness :
    ∃ c, (optimizeItinerary twoCurrencyItinerary).totalCost = some c ∧
      c.currency =
        (((activityCosts (sortItineraryDays twoCurrencyItinerary)).map
          Cost.currency).getLast?).getD "NZD" :=
  optimize_totalCost_currency twoCurrencyItinerary rfl

/-! ## C3: the per-day sort is correct and stable -/

/-- On activities whose time parses, the comparator-induced precedence is
exactly comparison of parsed times. -/
theorem actLe_iff {a b : ItineraryActivity}
    (ha : (timeKey a).isSome) (hb : (timeKey b).isSome) :
    actLe a b ↔ timeVal a ≤ timeVal b := by
  obtain ⟨p, hp⟩ := Option.isSome_iff_exists.mp ha
  obtain ⟨q, hq⟩ := Option.isSome_iff_exists.mp hb
  simp only [actLe, actCmp, timeVal, hp, hq, Option.getD_some]
  exact sub_nonpos

/-- On activities whose time parses, a comparator refusal means the inserted
element parses strictly later. -/
theorem timeVal_lt_of_not_actLe {a b : ItineraryActivity}
    (ha : (timeKey a).isSome) (hb : (timeKey b).isSome) (h : ¬ actLe a b) :
    timeVal b < timeVal a :=
  lt_of_not_le (fun hc => h ((actLe_iff ha hb).mpr hc))

/-- Inserting a time-parseable activity into a time-sorted list of
time-parseable activities keeps the list time-sorted. -/
theorem pairwise_orderedInsert (a : ItineraryActivity) (l : List ItineraryActivity)
    (ha : (timeKey a).isSome) (hl : ∀ x ∈ l, (timeKey x).isSome)
    (hs : l.Pairwise (fun x y => timeVal x ≤ timeVal y)) :
    (l.orderedInsert actLe a).Pairwise (fun x y => timeVal x ≤ timeVal y) := by
  induction l with
  | nil => simp
  | cons b t ih =>
    have hb : (timeKey b).isSome := hl b (List.mem_cons_self b t)
    rw [List.orderedInsert]
    by_cases hab : actLe a b
    · rw [if_pos hab]
      have hvab : timeVal a ≤ timeVal b := (actLe_iff ha hb).mp hab
      refine List.pairwise_cons.mpr ⟨?_, hs⟩
      intro x hx
      rcases List.mem_cons.mp hx with rfl | hx
      · exact hvab
      · exact le_trans hvab (List.rel_of_pairwise_cons hs hx)
    · rw [if_neg hab]
      have hvba : timeVal b < timeVal a := timeVal_lt_of_not_actLe ha hb hab
      refine List.pairwise_cons.mpr ⟨?_, ?_⟩
      · intro x hx
        rcases (List.mem_orderedInsert actLe).mp hx with rfl | hx
        · exact le_of_lt hvba
        · exact List.rel_of_pairwise_cons hs hx
      · exact ih (fun x hx => hl x (List.mem_cons_of_mem b hx)) hs.of_cons

/-- The insertion sort by the JavaScript comparator produces a list that is
non-decreasing in parsed time, provided every time parses. -/
theorem pairwise_insertionSort_timeVal (l : List ItineraryActivity)
    (hl : ∀ x ∈ l, (timeKey x).isSome) :
    (l.insertionSort actLe).Pairwise (fun x y => timeVal x ≤ timeVal y) := by
  induction l with
  | nil => simp
  | cons b t ih =>
    rw [List.insertionSort]
    refine pairwise_orderedInsert b _ (hl b (List.mem_cons_self b t)) ?_ ?_
    · intro x hx
      exact hl x (List.mem_cons_of_mem b ((List.mem_insertionSort actLe).mp hx))
    · exact ih (fun x hx => hl x (List.mem_cons_of_mem b hx))

/-- Stability of the insertion step: the subsequence of activities at any
given parsed time gains the inserted activity at the front exactly when it
has that time, and is otherwise untouched. -/
theorem filter_orderedInsert_timeVal (a : ItineraryActivity)
    (l : List ItineraryActivity) (v : ℚ)
    (ha : (timeKey a).isSome) (hl : ∀ x ∈ l, (timeKey x).isSome) :
    (l.orderedInsert actLe a).filter (fun x => decide (timeVal x = v)) =
      if timeVal a = v then
        a :: l.filter (fun x => decide (timeVal x = v))
      else l.filter (fun x => decide (timeVal x = v)) := by
  induction l with
  | nil =>
    by_cases hv : timeVal a = v <;> simp [List.filter_cons, hv]
  | cons b t ih =>
    have hb : (timeKey b).isSome := hl b (List.mem_cons_self b t)
    have iht := ih (fun x hx => hl x (List.mem_cons_of_mem b hx))
    rw [List.orderedInsert]
    by_cases hab : actLe a b
    · rw [if_pos hab]
      by_cases hv : timeVal a = v <;> simp [List.filter_cons, hv]
    · rw [if_neg hab]
      have hvba : timeVal b < timeVal a := timeVal_lt_of_not_actLe ha hb hab
      by_cases hv : timeVal a = v
      · have hbv : ¬ timeVal b = v := by
          rw [← hv]; exact ne_of_lt hvba
        simp [List.filter_cons, hbv, iht, hv]
      · by_cases hbv : timeVal b = v <;> simp [List.filter_cons, hbv, iht, hv]

/-- Stability of the whole sort: for any parsed time, the subsequence of
activities with that time is unchanged by the sort. -/
theorem filter_insertionSort_timeVal (l : List ItineraryActivity) (v : ℚ)
    (hl : ∀ x ∈ l, (timeKey x).isSome) :
    (l.insertionSort actLe).filter (fun x => decide (timeVal x = v)) =
      l.filter (fun x => decide (timeVal x = v)) := by
  induction l with
  | nil => rfl
  | cons b t ih =>
    rw [List.insertionSort]
    rw [filter_orderedInsert_timeVal b _ v (hl b (List.mem_cons_self b t))
      (fun x hx => hl x (List.mem_cons_of_mem b ((List.mem_insertionSort actLe).mp hx)))]
    rw [ih (fun x hx => hl x (List.mem_cons_of_mem b hx))]
    by_cases hv : timeVal b = v <;> simp [List.filter_cons, hv]

/-- The days of the post-processed itinerary are the original days, each with
its activities sorted, whether or not `totalCost` was present. -/
theorem optimizeItinerary_days (it : GeneratedItinerary) :
    (optimizeItinerary it).days = it.days.map optimizeDay := by
  unfold optimizeItinerary
  split <;> rfl

/-- C3: when every activity time parses as `HH:MM` (hours×60+minutes), the
post-processed itinerary has every day sorted non-decreasing in parsed time,
and the sort is stable: per day, the subsequence of activities at any given
parsed time is exactly as in the input day. -/
theorem optimize_sorts_each_day (it : GeneratedItinerary)
    (h : ∀ d ∈ it.days, ∀ a ∈ d.activities, (timeKey a).isSome) :
    (∀ d ∈ (optimizeItinerary it).days,
        d.activities.Pairwise (fun a b => timeVal a ≤ timeVal b)) ∧
    List.Forall₂
      (fun d d0 => ∀ v : ℚ,
        d.activities.filter (fun a => decide (timeVal a = v)) =
          d0.activities.filter (fun a => decide (timeVal a = v)))
      (optimizeItinerary it).days it.days := by
  rw [optimizeItinerary_days]
  constructor
  · intro d hd
    obtain ⟨d0, hd0, rfl⟩ := List.mem_map.mp hd
    exact pairwise_insertionSort_timeVal d0.activities (h d0 hd0)
  · have aux : ∀ ds : List ItineraryDay,
        (∀ d ∈ ds, ∀ a ∈ d.activities, (timeKey a).isSome) →
        List.Forall₂
          (fun d d0 => ∀ v : ℚ,
            d.activities.filter (fun a => decide (timeVal a = v)) =
              d0.activities.filter (fun a => decide (timeVal a = v)))
          (ds.map optimizeDay) ds := by
      intro ds
      induction ds with
      | nil => intro _; exact List.Forall₂.nil
      | cons d t ih =>
        intro hds
        refine List.Forall₂.cons ?_ (ih (fun x hx => hds x (List.mem_cons_of_mem d hx)))
        intro v
        exact filter_insertionSort_timeVal d.activities v (hds d (List.mem_cons_self d t))
    exact aux it.days h

/-- A concrete itinerary whose single day lists its activities out of time
order (12:00 before 09:00). -/
def unsortedItinerary : GeneratedItinerary :=
  { title := { en := "Trip", zh := "旅行" }
    summary := { en := "Out of order", zh := "乱序" }
    destination := "Queenstown"
    startDate := "2025-12-01"
    endDate := "2025-12-02"
    days :=
      [{ day := 1
         date := "2025-12-01"
         activities :=
           [{ time := "12:00"
              name := { en := "Lunch cruise", zh := "午餐游船" }
              description := { en := "Cruise", zh := "游船" }
              location := { name := "Lake Wakatipu", address := none, coordinates := none }
              duration := 90
              cost := none
              category := "leisure" },
            { time := "09:00"
              name := { en := "Gondola", zh := "缆车" }
              description := { en := "Ride up", zh := "上山" }
              location := { name := "Bob Peak", address := none, coordinates := none }
              duration := 60
              cost := none
              category := "sightseeing" }]
         meals := { breakfast := none, lunch := none, dinner := none }
         accommodation := none
         notes := none }]
    totalCost := none
    recommendations := [] }

/-- Witness for C3: the sortedness and stability conclusion holds at the
concrete out-of-order itinerary, whose two times parse. -/
theorem optimize_sorts_each_day_witness :
    (∀ d ∈ (optimizeItinerary unsortedItinerary).days,
        d.activities.Pairwise (fun a b => timeVal a ≤ timeVal b)) ∧
    List.Forall₂
      (fun d d0 => ∀ v : ℚ,
        d.activities.filter (fun a => decide (timeVal a = v)) =
          d0.activities.filter (fun a => decide (timeVal a = v)))
      (optimizeItinerary unsortedItinerary).days unsortedItinerary.days :=
  optimize_sorts_each_day unsortedItinerary (by decide)

/-! ## C10: post-processing frame -/

/-- C10: post-processing changes at most the order of activities inside each
day and an absent `totalCost`. The title, summary, destination, dates and
recommendations are unchanged; the days keep their number and order, and
each day keeps its day number, date, meals, accommodation and notes while
its activities are merely permuted (so every individual activity value is
preserved); a present `totalCost` is kept verbatim. -/
theorem optimize_frame (it : GeneratedItinerary) :
    (optimizeItinerary it).title = it.title ∧
    (optimizeItinerary it).summary = it.summary ∧
    (optimizeItinerary it).destination = it.destination ∧
    (optimizeItinerary it).startDate = it.startDate ∧
    (optimizeItinerary it).endDate = it.endDate ∧
    (optimizeItinerary it).recommendations = it.recommendations ∧
    (optimizeItinerary it).days.length = it.days.length ∧
    List.Forall₂
      (fun d d0 => d.day = d0.day ∧ d.date = d0.date ∧ d.meals = d0.meals ∧
        d.accommodation = d0.accommodation ∧ d.notes = d0.notes ∧
        d.activities.Perm d0.activities)
      (optimizeItinerary it).days it.days ∧
    (∀ c, it.totalCost = some c → (optimizeItinerary it).totalCost = some c) := by
  have hdays : (optimizeItinerary it).days = it.days.map optimizeDay :=
    optimizeItinerary_days it
  have hfields : (optimizeItinerary it).title = it.title ∧
      (optimizeItinerary it).summary = it.summary ∧
      (optimizeItinerary it).destination = it.destination ∧
      (optimizeItinerary it).startDate = it.startDate ∧
      (optimizeItinerary it).endDate = it.endDate ∧
      (optimizeItinerary it).recommendations = it.recommendations := by
    unfold optimizeItinerary
    split <;> exact ⟨rfl, rfl, rfl, rfl, rfl, rfl⟩
  obtain ⟨h1, h2, h3, h4, h5, h6⟩ := hfields
  refine ⟨h1, h2, h3, h4, h5, h6, ?_, ?_, ?_⟩
  · rw [hdays, List.length_map]
  · rw [hdays]
    have aux : ∀ ds : List ItineraryDay,
        List.Forall₂
          (fun d d0 => d.day = d0.day ∧ d.date = d0.date ∧ d.meals = d0.meals ∧
            d.accommodation = d0.accommodation ∧ d.notes = d0.notes ∧
            d.activities.Perm d0.activities)
          (ds.map optimizeDay) ds := by
      intro ds
      induction ds with
      | nil => exact List.Forall₂.nil
      | cons d t ih =>
        exact List.Forall₂.cons
          ⟨rfl, rfl, rfl, rfl, rfl, List.perm_insertionSort actLe d.activities⟩ ih
    exact aux it.days
  · intro c hc
    rw [optimizeItinerary_of_totalCost_some it c hc]
    exact hc

/-- The concrete two-cost itinerary with a `totalCost` already present. -/
def presentCostItinerary : GeneratedItinerary :=
  { twoCurrencyItinerary with totalCost := some { amount := 20, currency := "NZD" } }

/-- Witness for C10: at a concrete itinerary with a present `totalCost`, the
header fields survive post-processing and the present total cost is kept. -/
theorem optimize_frame_witness :
    (optimizeItinerary presentCostItinerary).title = presentCostItinerary.title ∧
    (optimizeItinerary presentCostItinerary).totalCost =
      some { amount := 20, currency := "NZD" } :=
  ⟨(optimize_frame presentCostItinerary).1,
   (optimize_frame presentCostItinerary).2.2.2.2.2.2.2.2
     { amount := 20, currency := "NZD" } rfl⟩

end Chatbot
